import Mathlib

/-!
Verification of the Socratic-AI (AeroMind) RAG core against its specification.

Python text is modelled as `List Char`; Python's substring test `a in b` as
infix containment of character lists; `str.upper()` / `str.lower()` as
character-wise case mapping (faithful on the ASCII markers the code tests).
A Python function that may raise is embedded as a function into
`Except PyError _`; external services (the FAISS index, the language model,
the vision model, the filesystem) are parameters of the embedded functions,
each one standing for the outcome of the corresponding external call.
-/

namespace AeroMind

/-- Python strings, modelled as lists of characters. -/
abbrev Str := List Char

/-- Character-wise model of Python `str.upper()` (exact on ASCII). -/
def pyUpper (s : Str) : Str := s.map Char.toUpper

/-- Character-wise model of Python `str.lower()` (exact on ASCII). -/
def pyLower (s : Str) : Str := s.map Char.toLower

/-- Python's substring test `needle in hay`. -/
def pyContains (needle hay : Str) : Bool := decide (needle <:+: hay)

/-! ## Metadata extraction (src/document_processor.py, `extract_metadata_from_text`) -/

/-- Does the regex `STEP \d+` (IGNORECASE) match at the very start of `l`?
A match needs `S`,`T`,`E`,`P` in any case, a space, then at least one digit;
since `re.search` only asks for existence, one digit suffices. -/
def stepHere : Str → Bool
  | s :: t :: e :: p :: sp :: d :: _ =>
      s.toUpper == 'S' && t.toUpper == 'T' && e.toUpper == 'E' && p.toUpper == 'P' &&
        sp == ' ' && d.isDigit
  | _ => false

/-- Does `re.search(r'STEP \d+', text, re.IGNORECASE)` find a match anywhere? -/
def hasStepNum : Str → Bool
  | [] => false
  | c :: rest => stepHere (c :: rest) || hasStepNum rest

/-- The aviation flags of `extract_metadata_from_text`.  The dict's further
entries (`source`, `ata_chapter`, `aircraft_type`) are not consulted by any
property below and are left out of the model. -/
structure AviationMeta where
  has_warning : Bool
  has_caution : Bool
  is_procedure : Bool
deriving DecidableEq, Repr

/-- `extract_metadata_from_text`:
`has_warning  = "WARNING" in text.upper()`,
`has_caution  = "CAUTION" in text.upper()`,
`is_procedure = bool(re.search(r'STEP \d+|PROCEDURE', text, re.IGNORECASE))`. -/
def extract_metadata_from_text (text : Str) : AviationMeta :=
  { has_warning := pyContains "WARNING".data (pyUpper text)
    has_caution := pyContains "CAUTION".data (pyUpper text)
    is_procedure := hasStepNum text || pyContains "PROCEDURE".data (pyUpper text) }

/-! ## Quality checker (src/rag_pipeline.py, `RAGPipeline._check_answer_quality`) -/

/-- One entry of the `sources` list the pipeline builds for display:
`{content (truncated preview), source, page, relevance_score}`.
`page` is `metadata.get("page", "N/A")`, an integer when present (`none`
stands for the `"N/A"` default); `relevance_score` is always `None`. -/
structure SourceRef where
  content : Str
  source : Str
  page : Option Nat
  relevance_score : Option Nat
deriving DecidableEq, Repr

/-- The hedging phrases of check 4 of `_check_answer_quality`. -/
def uncertainty_phrases : List Str :=
  ["cannot find".data, "not available".data, "unclear".data,
   "insufficient information".data]

/-- The dict `_check_answer_quality` returns. -/
structure QCFull where
  has_issues : Bool
  issues : List Str
  is_uncertain : Bool
  confidence : Str
deriving DecidableEq, Repr

/-- `RAGPipeline._check_answer_quality(answer, sources)`. -/
def check_answer_quality (answer : Str) (sources : List SourceRef) : QCFull :=
  let issues1 : List Str :=
    if !pyContains "Page:".data answer && !pyContains "Source:".data answer then
      ["Missing citations".data] else []
  let issues2 : List Str :=
    issues1 ++ (if answer.length < 50 then ["Answer too brief".data] else [])
  let issues3 : List Str :=
    issues2 ++ (if sources.length = 0 then ["No relevant sources found".data] else [])
  let is_uncertain : Bool :=
    uncertainty_phrases.any fun phrase => pyContains phrase (pyLower answer)
  { has_issues := issues3.length > 0
    issues := issues3
    is_uncertain := is_uncertain
    confidence := if issues3.length > 0 || is_uncertain then "low".data else "high".data }

/-! ## Documents, errors and the vector store (src/vectorstore_manager.py) -/

/-- The metadata entries of a retrieved document that the pipelines consult:
`metadata.get("source")`, `metadata.get("page")`, `metadata.get("has_diagram")`.
Each is `Option`al because Python's `dict.get` yields `None` on a missing key. -/
structure DocMeta where
  source : Option Str
  page : Option Nat
  has_diagram : Option Bool
deriving DecidableEq, Repr

/-- A LangChain `Document` as the pipelines see it: `page_content` plus metadata. -/
structure Document where
  page_content : Str
  metadata : DocMeta
deriving DecidableEq, Repr

/-- A raised Python exception as the query path can produce or the spec names it.
`attributeError` is what accessing `.similarity_search` on `None` raises;
`indexNotLoadedError` / `indexLoadError` exist only in the spec's taxonomy
(no such classes appear in the code) and are included so the spec's claims
about them can be stated. -/
inductive PyError where
  | attributeError (msg : Str)
  | indexNotLoadedError
  | indexLoadError
  | generic (msg : Str)
deriving DecidableEq, Repr

/-- `str(e)` of a raised exception. -/
def PyError.msg : PyError → Str
  | .attributeError m => m
  | .indexNotLoadedError => "IndexNotLoadedError".data
  | .indexLoadError => "IndexLoadError".data
  | .generic m => m

/-- Modelled from the spec: the FAISS vector index is an opaque external
service.  Per §4.4 and §6 it induces, for each query, a most-relevant-first
ordering of the stored documents (`ranked`), and `similarity_search(query, k)`
returns the first `k` of that ordering — all available documents when the
corpus holds fewer than `k`, the empty sequence when it holds none. -/
structure Index where
  ranked : Str → List Document

/-- `FAISS.similarity_search(query, k)` under the spec's model of the index. -/
def Index.similarity_search (idx : Index) (query : Str) (k : Nat) : List Document :=
  (idx.ranked query).take k

/-- `VectorStoreManager`: the one field the query path reads is
`self.vectorstore`, `None` until a successful load or build. -/
structure VSManager where
  vectorstore : Option Index

/-- `VectorStoreManager.load_vectorstore`.  `loadOutcome` is the outcome of the
external `FAISS.load_local` call (`.error` when no index exists at the
configured location or the format is unreadable).  The body wraps that call in
a catch-all `try/except` that prints and returns `None` on failure, so the
method itself never raises: the result is always `.ok` of the new manager
state (assignment to `self.vectorstore` happens only on success). -/
def load_vectorstore (m : VSManager) (loadOutcome : Except PyError Index) :
    Except PyError VSManager :=
  match loadOutcome with
  | .ok idx => .ok { vectorstore := some idx }
  | .error _ => .ok m

/-- The manager state after the implicit `if not self.vectorstore:
self.load_vectorstore()` step that `search` and the pipelines' `query` run. -/
def VSManager.ensure (m : VSManager) (loadOutcome : Except PyError Index) : VSManager :=
  if m.vectorstore.isNone then
    ((load_vectorstore m loadOutcome).toOption).getD m
  else m

/-- The message of the exception Python raises when `self.vectorstore` is still
`None` and `.similarity_search` is accessed on it. -/
def noneAttrMsg : Str :=
  "AttributeError: 'NoneType' object has no attribute 'similarity_search'".data

/-- `VectorStoreManager.search(query, k)`: loads the index if unset, then calls
`self.vectorstore.similarity_search(query, k)` — which raises an
`AttributeError` when the load failed and the field is still `None`. -/
def VSManager.search (m : VSManager) (loadOutcome : Except PyError Index)
    (query : Str) (k : Nat) : Except PyError (List Document) :=
  match (m.ensure loadOutcome).vectorstore with
  | some idx => .ok (idx.similarity_search query k)
  | none => .error (.attributeError noneAttrMsg)

/-! ## Context assembly and the plain pipeline (src/rag_pipeline.py, `RAGPipeline.query`) -/

/-- `metadata.get("source", "Unknown")`. -/
def getSource (md : DocMeta) : Str := md.source.getD "Unknown".data

/-- `metadata.get("page", "N/A")`, rendered as the f-string renders it. -/
def pageStr (md : DocMeta) : Str :=
  match md.page with
  | some n => (toString n).data
  | none => "N/A".data

/-- One context block: `f"[Source {i}: {source}, Page {page}]\n{doc.page_content}"`. -/
def sourceBlock (i : Nat) (d : Document) : Str :=
  "[Source ".data ++ (toString i).data ++ ": ".data ++ getSource d.metadata ++
    ", Page ".data ++ pageStr d.metadata ++ "]\n".data ++ d.page_content

/-- The `context_parts` list: one block per document, ranks counted from 1. -/
def contextParts (docs : List Document) : List Str :=
  docs.enum.map fun p => sourceBlock (p.1 + 1) p.2

/-- Python's `sep.join(parts)`. -/
def joinSep (sep : Str) : List Str → Str
  | [] => []
  | [p] => p
  | p :: ps => p ++ sep ++ joinSep sep ps

/-- `context = "\n\n---\n\n".join(context_parts)`. -/
def buildContext (docs : List Document) : Str :=
  joinSep "\n\n---\n\n".data (contextParts docs)

/-- The full prompt f-string; `tail` is the closing line, which differs
between the plain and the multimodal pipeline. -/
def fullPrompt (systemPrompt context question tail : Str) : Str :=
  systemPrompt ++ "\n\nContext from manuals:\n".data ++ context ++
    "\n\nQuestion: ".data ++ question ++ "\n\n".data ++ tail

/-- The plain pipeline's closing prompt line. -/
def ragTail : Str := "Answer with citations:".data

/-- The 300-character preview truncation applied to a source's `content`. -/
def pyTruncate (s : Str) : Str :=
  if s.length > 300 then s.take 300 ++ "...".data else s

/-- One formatted source of the plain pipeline's result. -/
def mkSourceRef (d : Document) : SourceRef :=
  { content := pyTruncate d.page_content
    source := getSource d.metadata
    page := d.metadata.page
    relevance_score := none }

/-- The `quality_check` value carried in a query result.  The checker's dict
has all four keys; the zero-result branch builds a dict with only
`has_issues` and `issues`, so the last two are `Option`al. -/
structure QualityInfo where
  has_issues : Bool
  issues : List Str
  is_uncertain : Option Bool
  confidence : Option Str
deriving DecidableEq, Repr

/-- The checker's dict viewed as a `quality_check` value. -/
def QCFull.toInfo (q : QCFull) : QualityInfo :=
  { has_issues := q.has_issues, issues := q.issues
    is_uncertain := some q.is_uncertain, confidence := some q.confidence }

/-- The dict `RAGPipeline.query` returns. -/
structure RAGResult where
  answer : Str
  sources : List SourceRef
  confidence : Str
  quality_check : QualityInfo
deriving DecidableEq, Repr

/-- The zero-result answer of the plain pipeline. -/
def noDocsAnswer : Str :=
  "⚠️ I cannot find relevant information in the loaded manuals. Please verify the question or check if the appropriate manual is loaded.".data

/-- `RAGPipeline.query` from the retrieval result on: `docs` is what
`similarity_search(question, k=5)` returned and `llm` the external
`self.llm.invoke` call (`.error` = the LLM raised).  No handler wraps the
body, so an LLM exception propagates as `.error`. -/
def ragQuery (systemPrompt : Str) (docs : List Document)
    (llm : Str → Except PyError Str) (question : Str) (return_sources : Bool) :
    Except PyError RAGResult :=
  if docs.length = 0 then
    .ok { answer := noDocsAnswer, sources := [], confidence := "none".data
          quality_check := { has_issues := true, issues := ["No documents found".data]
                             is_uncertain := none, confidence := none } }
  else
    match llm (fullPrompt systemPrompt (buildContext docs) question ragTail) with
    | .error e => .error e
    | .ok answer =>
      let sources := if return_sources then docs.map mkSourceRef else []
      let qc := check_answer_quality answer sources
      .ok { answer := answer, sources := sources
            confidence := qc.confidence, quality_check := qc.toInfo }

/-- `RAGPipeline.query` including its retrieval stage: the manager's implicit
load followed by `similarity_search(question, k=5)` — an `AttributeError`
from an unset index propagates, exactly as in `VSManager.search`. -/
def RAGPipeline.query (systemPrompt : Str) (m : VSManager)
    (loadOutcome : Except PyError Index) (llm : Str → Except PyError Str)
    (question : Str) (return_sources : Bool) : Except PyError RAGResult :=
  match VSManager.search m loadOutcome question 5 with
  | .error e => .error e
  | .ok docs => ragQuery systemPrompt docs llm question return_sources

/-! ## The error-handling decorator (src/error_handler.py, `handle_query_errors`) -/

/-- The dict the decorator builds from a caught exception. -/
structure ErrorDict where
  answer : Str
  sources : List SourceRef
  confidence : Str
  error : Str
deriving DecidableEq, Repr

/-- What a function wrapped by `handle_query_errors` can return: the wrapped
function's own value, or the converted error dict. -/
inductive Wrapped (β : Type) where
  | normal (r : β)
  | handled (e : ErrorDict)
deriving DecidableEq, Repr

/-- `handle_query_errors`: runs the wrapped function and converts any raised
exception into the fixed error dict; it never re-raises.  It is defined in
src/error_handler.py but applied to no function anywhere in the repository. -/
def handle_query_errors {α β : Type} (f : α → Except PyError β) (a : α) : Wrapped β :=
  match f a with
  | .ok r => .normal r
  | .error e =>
      .handled
        { answer := "⚠️ Error processing query: ".data ++ e.msg ++
            ". Please try rephrasing your question or contact support.".data
          sources := [], confidence := "error".data, error := e.msg }

/-! ## The multimodal pipeline (src/rag_pipeline_multimodal.py, `MultimodalRAGPipeline`) -/

/-- An entry of the image catalog; every field is read with `.get`, hence
`Option`al. -/
structure CatalogImage where
  filename : Option Str
  path : Option Str
  page : Option Nat
  source : Option Str
  width : Option Nat
  height : Option Nat
deriving DecidableEq, Repr

/-- One entry of the result's `images` list — the dict `query` rebuilds from a
catalog entry, projecting the six displayed fields. -/
structure ImageRef where
  filename : Option Str
  path : Option Str
  page : Option Nat
  source : Option Str
  width : Option Nat
  height : Option Nat
deriving DecidableEq, Repr

/-- The projection from a catalog entry to a result image. -/
def mkImageRef (img : CatalogImage) : ImageRef :=
  { filename := img.filename, path := img.path, page := img.page
    source := img.source, width := img.width, height := img.height }

/-- One entry of the result's `image_analyses` list. -/
structure ImageAnalysis where
  filename : Option Str
  page : Option Nat
  analysis : Str
deriving DecidableEq, Repr

/-- A multimodal source dict: `{content, source, page}` (no `relevance_score`). -/
structure MSourceRef where
  content : Str
  source : Str
  page : Option Nat
deriving DecidableEq, Repr

/-- One formatted source of the multimodal pipeline's result. -/
def mkMSourceRef (d : Document) : MSourceRef :=
  { content := pyTruncate d.page_content
    source := getSource d.metadata
    page := d.metadata.page }

/-- The dict `MultimodalRAGPipeline.query` returns.  `image_analyses`,
`quality_check` and `has_diagrams` are `Option`al because the zero-result
branch returns a dict without those keys; `quality_check` in particular is a
key neither branch ever adds. -/
structure MMResult where
  answer : Str
  sources : List MSourceRef
  images : List ImageRef
  image_analyses : Option (List ImageAnalysis)
  confidence : Str
  quality_check : Option QualityInfo
  has_diagrams : Option Bool
deriving DecidableEq, Repr

/-- The keyword list of `_detect_diagram_request`. -/
def diagram_keywords : List Str :=
  ["diagram".data, "figure".data, "illustration".data, "picture".data,
   "image".data, "drawing".data, "schematic".data, "show me".data,
   "what does it look like".data, "visual".data, "chart".data, "graph".data,
   "layout".data, "location".data]

/-- `MultimodalRAGPipeline._detect_diagram_request(question)`. -/
def detect_diagram_request (question : Str) : Bool :=
  diagram_keywords.any fun kw => pyContains kw (pyLower question)

/-- `MultimodalRAGPipeline._find_relevant_images(docs, question)`: for each
retrieved document, every catalog entry whose `page` and `source` equal the
document's (Python `==`, under which `None == None` holds). -/
def find_relevant_images (catalog : List CatalogImage) (docs : List Document) :
    List CatalogImage :=
  docs.flatMap fun d =>
    catalog.filter fun img =>
      decide (img.page = d.metadata.page ∧ img.source = d.metadata.source)

/-- `f"{v}"` for an optional string value (`None` prints as `"None"`). -/
def optStr (v : Option Str) : Str := v.getD "None".data

/-- `f"{v}"` for an optional integer value. -/
def optNatStr (v : Option Nat) : Str :=
  match v with
  | some n => (toString n).data
  | none => "None".data

/-- One appended diagram-analysis block of the multimodal context. -/
def analysisBlock (idx : Nat) (a : ImageAnalysis) : Str :=
  "[Diagram ".data ++ (toString idx).data ++ ": ".data ++ optStr a.filename ++
    ", Page ".data ++ optNatStr a.page ++ "]\n".data ++ a.analysis ++ "\n\n".data

/-- The multimodal pipeline's closing prompt line. -/
def mmTail : Str := "Answer with citations (include diagram references if relevant):".data

/-- The multimodal zero-result answer. -/
def mmNoDocsAnswer : Str :=
  "⚠️ I cannot find relevant information in the loaded manuals.".data

/-- `MultimodalRAGPipeline.query` from the retrieval result on.  `docs` is the
retrieval result, `catalog` the loaded image catalog, `pathExists` the
filesystem's answer to `Path(p).exists()`, `vision` the outcome of
`_analyze_image_with_vision_model` (total: that method catches its own
exceptions and returns an apology string), and `llm` the external
`self.text_llm.invoke` call.  As in the plain pipeline, no handler wraps the
body, so an LLM exception propagates as `.error`. -/
def mmQuery (systemPrompt : Str) (docs : List Document)
    (catalog : List CatalogImage) (pathExists : Str → Bool)
    (vision : Str → Str → Str) (llm : Str → Except PyError Str)
    (question : Str) (return_sources include_images : Bool) :
    Except PyError MMResult :=
  if docs.length = 0 then
    .ok { answer := mmNoDocsAnswer, sources := [], images := []
          image_analyses := none, confidence := "none".data
          quality_check := none, has_diagrams := none }
  else
    let wants_diagrams := detect_diagram_request question
    let relevant_images :=
      if include_images &&
          (wants_diagrams || docs.any fun d => d.metadata.has_diagram.getD false) then
        find_relevant_images catalog docs
      else []
    let image_analyses : List ImageAnalysis :=
      (relevant_images.take 3).filterMap fun img =>
        match img.path with
        | some p =>
            if !p.isEmpty && pathExists p then
              some { filename := img.filename, page := img.page
                     analysis := vision p question }
            else none
        | none => none
    let context :=
      if image_analyses.length > 0 then
        buildContext docs ++ "\n\n--- DIAGRAM ANALYSIS ---\n\n".data ++
          (image_analyses.enum.map fun a => analysisBlock (a.1 + 1) a.2).flatten
      else buildContext docs
    match llm (fullPrompt systemPrompt context question mmTail) with
    | .error e => .error e
    | .ok answer =>
      let sources := if return_sources then docs.map mkMSourceRef else []
      let image_results := relevant_images.map mkImageRef
      .ok { answer := answer, sources := sources, images := image_results
            image_analyses := some image_analyses
            confidence :=
              if (!sources.isEmpty && !wants_diagrams) ||
                  (!sources.isEmpty && !image_results.isEmpty) then
                "high".data else "medium".data
            quality_check := none
            has_diagrams := some (image_results.length > 0) }

/-! ## Sample data for concrete instances -/

/-- A sample retrieved chunk. -/
def d0 : Document :=
  { page_content :=
      "The APU is the Auxiliary Power Unit used for ground electrical power.".data
    metadata := { source := some "manual.pdf".data, page := some 12, has_diagram := none } }

/-- A sample one-document index. -/
def idx0 : Index := { ranked := fun _ => [d0] }

/-- A sample catalog image sitting on the same page as `d0`. -/
def img0 : CatalogImage :=
  { filename := some "fig1.png".data, path := some "images/fig1.png".data
    page := some 12, source := some "manual.pdf".data
    width := some 640, height := some 480 }

/-- The plain pipeline's result for question `"q"` over `[d0]` when the LLM
answers `"ans"`: the answer lacks citations and is under 50 characters. -/
def r0 : RAGResult :=
  { answer := "ans".data
    sources := [mkSourceRef d0]
    confidence := "low".data
    quality_check :=
      { has_issues := true
        issues := ["Missing citations".data, "Answer too brief".data]
        is_uncertain := some false
        confidence := some "low".data } }

/-- The multimodal pipeline's result for question `"q"` over `[d0]` with an
empty catalog when the LLM answers `"ans"`. -/
def mr0 : MMResult :=
  { answer := "ans".data
    sources := [mkMSourceRef d0]
    images := []
    image_analyses := some []
    confidence := "high".data
    quality_check := none
    has_diagrams := some false }

/-! ## Helper lemmas -/

/-- The checker only ever grades `"low"` or `"high"`. -/
theorem confidence_low_or_high (a : Str) (s : List SourceRef) :
    (check_answer_quality a s).confidence = "low".data ∨
      (check_answer_quality a s).confidence = "high".data := by
  simp only [check_answer_quality]
  split_ifs <;> simp

/-- The checker's `has_issues` bit agrees with its issue list. -/
theorem has_issues_iff_issues_ne_nil (a : Str) (s : List SourceRef) :
    ((check_answer_quality a s).has_issues = true ↔
      (check_answer_quality a s).issues ≠ []) := by
  simp only [check_answer_quality]
  split_ifs <;> simp

theorem pyContains_eq_true {needle hay : Str} :
    pyContains needle hay = true ↔ needle <:+: hay := by
  simp [pyContains]

theorem pyContains_eq_false {needle hay : Str} :
    pyContains needle hay = false ↔ ¬needle <:+: hay := by
  simp [pyContains]

/-- Splitting an infix of a mapped list back over the original list. -/
theorem infix_map_iff (f : Char → Char) (pat text : Str) :
    pat <:+: text.map f ↔ ∃ a b c, text = a ++ b ++ c ∧ b.map f = pat := by
  constructor
  · rintro ⟨s, t, h⟩
    have h' : List.map f text = s ++ (pat ++ t) := by
      rw [← h]; simp [List.append_assoc]
    obtain ⟨a, bc, rfl, -, hbc⟩ := List.map_eq_append_iff.mp h'
    obtain ⟨b, c, rfl, hb, -⟩ := List.map_eq_append_iff.mp hbc
    exact ⟨a, b, c, by simp [List.append_assoc], hb⟩
  · rintro ⟨a, b, c, rfl, hb⟩
    exact ⟨a.map f, c.map f, by simp [hb]⟩

/-! ## C1 -/

/-- C1: the propagation policy fails on the code.  With one retrieved chunk
and an Answer Generator that raises a timeout fault, `RAGPipeline.query`
propagates the exception to its caller: `handle_query_errors` would convert
it into the well-formed confidence-"error" result the claim describes, but
that decorator is applied to no function in the repository. -/
theorem generator_fault_escapes_query :
    ragQuery [] [d0] (fun _ => .error (.generic "LLM timeout".data)) "q".data true
        = .error (.generic "LLM timeout".data)
  ∧ handle_query_errors
        (fun _ : Unit => (.error (.generic "LLM timeout".data) : Except PyError RAGResult)) ()
        = .handled
            { answer := "⚠️ Error processing query: LLM timeout. Please try rephrasing your question or contact support.".data
              sources := [], confidence := "error".data
              error := "LLM timeout".data } := by
  exact ⟨rfl, rfl⟩

/-! ## C2 -/

/-- C2: when retrieval returns zero chunks, both pipelines return a
confidence-"none" result whose answer contains a "cannot find" message and
whose sources are empty, and the result does not depend on the Answer
Generator — it is never invoked. -/
theorem zero_result_short_circuit (sp q : Str) (llm llm' : Str → Except PyError Str)
    (rs ii : Bool) (catalog : List CatalogImage) (pe : Str → Bool)
    (vision : Str → Str → Str) :
    (∃ r, ragQuery sp [] llm q rs = .ok r ∧ r.confidence = "none".data ∧
        r.sources = [] ∧ "cannot find".data <:+: r.answer)
  ∧ ragQuery sp [] llm q rs = ragQuery sp [] llm' q rs
  ∧ (∃ r, mmQuery sp [] catalog pe vision llm q rs ii = .ok r ∧
        r.confidence = "none".data ∧ r.sources = [] ∧
        "cannot find".data <:+: r.answer)
  ∧ mmQuery sp [] catalog pe vision llm q rs ii
      = mmQuery sp [] catalog pe vision llm' q rs ii := by
  refine ⟨⟨_, rfl, rfl, rfl, by decide⟩, rfl, ⟨_, rfl, rfl, rfl, by decide⟩, rfl⟩

/-! ## C6 -/

/-- C6 counterexample: with no index at the configured location
(`FAISS.load_local` raises), `load_vectorstore` does not fail — the catch-all
`except` swallows the exception and the method returns normally with the
in-memory index still unset, contradicting "load fails with IndexLoadError". -/
theorem load_failure_returns_normally :
    load_vectorstore ⟨none⟩ (.error PyError.indexLoadError) = .ok ⟨none⟩
  ∧ ∀ e : PyError, load_vectorstore ⟨none⟩ (.error PyError.indexLoadError)
      ≠ .error e := by
  exact ⟨rfl, fun e h => Except.noConfusion h⟩

/-- C6 amended: `load_vectorstore` never raises.  On a load failure it
returns normally and leaves the manager state exactly as it was (in
particular, an unset in-memory index remains unset); on success it installs
the loaded index. -/
theorem load_failure_no_side_effect (m : VSManager) (e : PyError) (idx : Index) :
    load_vectorstore m (.error e) = .ok m
  ∧ load_vectorstore m (.ok idx) = .ok ⟨some idx⟩ := by
  exact ⟨rfl, rfl⟩

/-! ## C3 -/

/-- C3: the quality check is a deterministic function of `(answer, sources)`:
each issue is appended exactly under its documented condition, the derived
confidence is `"high"` exactly when there are no issues and no hedging phrase
occurs (case-insensitively) in the answer, and `"low"` otherwise; and
`check("Short.", [])` yields all three issues with confidence `"low"`. -/
theorem quality_check_characterization (answer : Str) (sources : List SourceRef) :
    ("Missing citations".data ∈ (check_answer_quality answer sources).issues ↔
        ¬("Page:".data <:+: answer ∨ "Source:".data <:+: answer))
  ∧ ("Answer too brief".data ∈ (check_answer_quality answer sources).issues ↔
        answer.length < 50)
  ∧ ("No relevant sources found".data ∈ (check_answer_quality answer sources).issues ↔
        sources = [])
  ∧ ((check_answer_quality answer sources).confidence = "high".data ↔
        ((check_answer_quality answer sources).issues = [] ∧
          ∀ p ∈ uncertainty_phrases, ¬p <:+: pyLower answer))
  ∧ ((check_answer_quality answer sources).confidence = "high".data ∨
        (check_answer_quality answer sources).confidence = "low".data)
  ∧ (check_answer_quality "Short.".data []).issues =
      ["Missing citations".data, "Answer too brief".data,
       "No relevant sources found".data]
  ∧ (check_answer_quality "Short.".data []).confidence = "low".data := by
  have hne1 : "Missing citations".data ≠ "Answer too brief".data := by decide
  have hne2 : "Missing citations".data ≠ "No relevant sources found".data := by decide
  have hne3 : "Answer too brief".data ≠ "No relevant sources found".data := by decide
  have hlh : "low".data ≠ "high".data := by decide
  refine ⟨?_, ?_, ?_, ?_, ?_, by decide, by decide⟩
  · simp only [check_answer_quality]
    split_ifs with h1 h2 h3 <;>
      simp_all [pyContains_eq_false, pyContains_eq_true, not_or,
        Bool.and_eq_true, Bool.not_eq_true']
  · simp only [check_answer_quality]
    split_ifs with h1 h2 h3 <;> simp_all
  · simp only [check_answer_quality]
    split_ifs with h1 h2 h3 <;>
      simp_all [List.length_eq_zero]
  · simp only [check_answer_quality]
    split_ifs with h1 h2 h3 <;>
      simp_all [List.any_eq_false, pyContains_eq_false, pyContains_eq_true,
        List.length_eq_zero, decide_eq_true_iff]
  · simp only [check_answer_quality]
    split_ifs <;> simp_all

/-! ## C7 -/

/-- `stepHere` succeeds exactly on a list starting with `STEP ` (any case)
followed by a digit. -/
theorem stepHere_iff (l : Str) :
    stepHere l = true ↔
      ∃ s t e p d rest, l = s :: t :: e :: p :: ' ' :: d :: rest ∧
        pyUpper [s, t, e, p] = "STEP".data ∧ d.isDigit = true := by
  have hstep : "STEP".data = ['S', 'T', 'E', 'P'] := rfl
  match l with
  | [] => simp [stepHere]
  | [_] => simp [stepHere]
  | [_, _] => simp [stepHere]
  | [_, _, _] => simp [stepHere]
  | [_, _, _, _] => simp [stepHere]
  | [_, _, _, _, _] => simp [stepHere]
  | s :: t :: e :: p :: sp :: d :: rest =>
    simp only [stepHere, Bool.and_eq_true, beq_iff_eq, hstep, pyUpper,
      List.map_cons, List.map_nil, List.cons.injEq, and_true]
    constructor
    · rintro ⟨⟨⟨⟨⟨hs, ht⟩, he⟩, hp⟩, hsp⟩, hd⟩
      exact ⟨s, t, e, p, d, rest, by simp [hsp], ⟨hs, ht, he, hp⟩, hd⟩
    · rintro ⟨s', t', e', p', d', rest', heq, ⟨hs, ht, he, hp⟩, hd⟩
      obtain ⟨rfl, rfl, rfl, rfl, rfl, rfl, rfl⟩ :
          s = s' ∧ t = t' ∧ e = e' ∧ p = p' ∧ sp = ' ' ∧ d = d' ∧ rest = rest' := by
        simpa using heq
      exact ⟨⟨⟨⟨⟨hs, ht⟩, he⟩, hp⟩, rfl⟩, hd⟩

/-- `hasStepNum` scans every suffix for `stepHere`. -/
theorem hasStepNum_iff (l : Str) :
    hasStepNum l = true ↔ ∃ a r, l = a ++ r ∧ stepHere r = true := by
  induction l with
  | nil =>
    simp only [hasStepNum]
    constructor
    · intro h; exact absurd h (by simp)
    · rintro ⟨a, r, heq, hr⟩
      obtain ⟨rfl, rfl⟩ : a = [] ∧ r = [] := by
        constructor <;> [skip; skip] <;>
          · cases a <;> simp_all
      simp [stepHere] at hr
  | cons c rest ih =>
    simp only [hasStepNum, Bool.or_eq_true, ih]
    constructor
    · rintro (h | ⟨a, r, rfl, hr⟩)
      · exact ⟨[], c :: rest, rfl, h⟩
      · exact ⟨c :: a, r, rfl, hr⟩
    · rintro ⟨a, r, heq, hr⟩
      match a, heq with
      | [], heq => left; rw [show c :: rest = r from by simpa using heq]; exact hr
      | x :: xs, heq =>
        right
        obtain ⟨rfl, h2⟩ : x = c ∧ xs ++ r = rest := by simpa using heq.symm
        exact ⟨xs, r, h2.symm, hr⟩

/-- C7: the metadata flags are pure functions of the text:
`has_warning`/`has_caution` hold exactly when the text contains
"WARNING"/"CAUTION" in any case, and `is_procedure` exactly when the text
matches `STEP <digit>` or contains the token "PROCEDURE", case-insensitively. -/
theorem metadata_flags_characterization (text : Str) :
    ((extract_metadata_from_text text).has_warning = true ↔
        ∃ a b c, text = a ++ b ++ c ∧ pyUpper b = "WARNING".data)
  ∧ ((extract_metadata_from_text text).has_caution = true ↔
        ∃ a b c, text = a ++ b ++ c ∧ pyUpper b = "CAUTION".data)
  ∧ ((extract_metadata_from_text text).is_procedure = true ↔
        ((∃ a s t e p d rest, text = a ++ [s, t, e, p, ' ', d] ++ rest ∧
            pyUpper [s, t, e, p] = "STEP".data ∧ d.isDigit = true)
          ∨ ∃ a b c, text = a ++ b ++ c ∧ pyUpper b = "PROCEDURE".data)) := by
  refine ⟨?_, ?_, ?_⟩
  · simpa only [extract_metadata_from_text, pyContains_eq_true, pyUpper] using
      infix_map_iff Char.toUpper "WARNING".data text
  · simpa only [extract_metadata_from_text, pyContains_eq_true, pyUpper] using
      infix_map_iff Char.toUpper "CAUTION".data text
  · simp only [extract_metadata_from_text, Bool.or_eq_true, pyContains_eq_true,
      pyUpper, infix_map_iff, hasStepNum_iff]
    constructor
    · rintro (⟨a, r, rfl, hr⟩ | h)
      · obtain ⟨s, t, e, p, d, rest, rfl, hup, hd⟩ := (stepHere_iff r).mp hr
        exact Or.inl ⟨a, s, t, e, p, d, rest, by simp, hup, hd⟩
      · exact Or.inr h
    · rintro (⟨a, s, t, e, p, d, rest, rfl, hup, hd⟩ | h)
      · refine Or.inl ⟨a, s :: t :: e :: p :: ' ' :: d :: rest, by simp, ?_⟩
        exact (stepHere_iff _).mpr ⟨s, t, e, p, d, rest, rfl, hup, hd⟩
      · exact Or.inr h

/-! ## C4 -/

/-- C4 counterexample: a successful multimodal query result carries no
`quality_check` key at all (and neither does the multimodal zero-result
branch), so not every pipeline result contains the claimed
`quality_check` object. -/
theorem multimodal_result_lacks_quality_check :
    ∃ r, mmQuery [] [d0] [] (fun _ => false) (fun _ _ => [])
        (fun _ => .ok "ans".data) "q".data true true = .ok r ∧
      r.quality_check = none := by
  exact ⟨mr0, rfl, rfl⟩

/-- C4 amended: every plain-pipeline result has confidence in
`{none, low, high}` and a `quality_check` whose `has_issues` bit agrees with
its issue list; every multimodal result has confidence in
`{none, medium, high}` — graded by the multimodal orchestrator's own rule,
which replaces (rather than layers on) the quality checker — and never
contains a `quality_check` object. -/
theorem confidence_enum_amended (sp q : Str) (docs : List Document)
    (llm : Str → Except PyError Str) (rs ii : Bool)
    (catalog : List CatalogImage) (pe : Str → Bool) (vision : Str → Str → Str)
    (r : RAGResult) (mr : MMResult)
    (h : ragQuery sp docs llm q rs = .ok r)
    (hm : mmQuery sp docs catalog pe vision llm q rs ii = .ok mr) :
    (r.confidence = "none".data ∨ r.confidence = "low".data ∨
        r.confidence = "high".data)
  ∧ (r.quality_check.has_issues = true ↔ r.quality_check.issues ≠ [])
  ∧ (mr.confidence = "none".data ∨ mr.confidence = "medium".data ∨
        mr.confidence = "high".data)
  ∧ mr.quality_check = none := by
  have hr : (r.confidence = "none".data ∨ r.confidence = "low".data ∨
        r.confidence = "high".data)
      ∧ (r.quality_check.has_issues = true ↔ r.quality_check.issues ≠ []) := by
    simp only [ragQuery] at h
    split at h
    · injection h with h; subst h
      exact ⟨Or.inl rfl, by simp⟩
    · split at h
      · exact absurd h (by simp)
      · injection h with h; subst h
        refine ⟨?_, has_issues_iff_issues_ne_nil ..⟩
        rcases confidence_low_or_high _ (if rs then docs.map mkSourceRef else [])
            with hc | hc
        · exact Or.inr (Or.inl hc)
        · exact Or.inr (Or.inr hc)
  have hmr : (mr.confidence = "none".data ∨ mr.confidence = "medium".data ∨
        mr.confidence = "high".data) ∧ mr.quality_check = none := by
    simp only [mmQuery] at hm
    split at hm
    · injection hm with hm; subst hm
      exact ⟨Or.inl rfl, rfl⟩
    · split at hm
      · exact absurd hm (by simp)
      · injection hm with hm; subst hm
        constructor
        · dsimp only
          repeat' split
          all_goals first
            | exact Or.inr (Or.inr rfl)
            | exact Or.inr (Or.inl rfl)
        · rfl
  exact ⟨hr.1, hr.2, hmr.1, hmr.2⟩

/-- C4 amended, at a concrete run of both pipelines. -/
theorem confidence_enum_amended_witness :
    (r0.confidence = "none".data ∨ r0.confidence = "low".data ∨
        r0.confidence = "high".data)
  ∧ (r0.quality_check.has_issues = true ↔ r0.quality_check.issues ≠ [])
  ∧ (mr0.confidence = "none".data ∨ mr0.confidence = "medium".data ∨
        mr0.confidence = "high".data)
  ∧ mr0.quality_check = none :=
  confidence_enum_amended [] "q".data [d0] (fun _ => .ok "ans".data) true true
    [] (fun _ => false) (fun _ _ => []) r0 mr0 rfl rfl

/-! ## C5 -/

/-- C5 counterexample: `search` called before any successful build or load,
with no loadable index, raises the untyped `AttributeError` of a `None`
attribute access — not `IndexNotLoadedError` (no such class exists in the
code). -/
theorem search_before_load_attribute_error :
    VSManager.search ⟨none⟩ (.error PyError.indexLoadError) "q".data 5
        = .error (.attributeError noneAttrMsg)
  ∧ VSManager.search ⟨none⟩ (.error PyError.indexLoadError) "q".data 5
        ≠ .error PyError.indexNotLoadedError := by
  refine ⟨rfl, fun h => ?_⟩
  rw [show VSManager.search ⟨none⟩ (.error PyError.indexLoadError) "q".data 5
      = .error (.attributeError noneAttrMsg) from rfl] at h
  injection h with h
  exact absurd h (by decide)

/-- C5 amended: with an index in memory, or after a successful implicit load,
`search` returns the first `k` documents of the index's most-relevant-first
ordering (all available documents when the corpus has fewer than `k`, never an
error); when no index is in memory and the implicit load fails, `search`
raises the `AttributeError` of accessing the unset index. -/
theorem search_behavior_amended (m : VSManager) (lo : Except PyError Index)
    (q : Str) (k : Nat) :
    (∀ idx, m.vectorstore = some idx →
        VSManager.search m lo q k = .ok ((idx.ranked q).take k))
  ∧ (m.vectorstore = none → ∀ idx, lo = .ok idx →
        VSManager.search m lo q k = .ok ((idx.ranked q).take k))
  ∧ (m.vectorstore = none → ∀ e, lo = .error e →
        VSManager.search m lo q k = .error (.attributeError noneAttrMsg))
  ∧ ∀ idx : Index, ((idx.ranked q).take k).length ≤ k
      ∧ ((idx.ranked q).length ≤ k → (idx.ranked q).take k = idx.ranked q) := by
  refine ⟨?_, ?_, ?_, ?_⟩
  · intro idx hm
    simp [VSManager.search, VSManager.ensure, hm, Index.similarity_search]
  · intro hm idx hlo
    simp [VSManager.search, VSManager.ensure, hm, hlo, load_vectorstore,
      Index.similarity_search, Except.toOption]
  · intro hm e hlo
    simp [VSManager.search, VSManager.ensure, hm, hlo, load_vectorstore,
      Except.toOption]
  · intro idx
    refine ⟨?_, fun h => List.take_of_length_le h⟩
    rw [List.length_take]
    exact Nat.min_le_left ..

/-- C5 amended, at a concrete loaded one-document index with `k = 5`. -/
theorem search_behavior_amended_witness :
    VSManager.search ⟨some idx0⟩ (.error PyError.indexLoadError) "q".data 5
      = .ok ((idx0.ranked "q".data).take 5) :=
  (search_behavior_amended ⟨some idx0⟩ (.error PyError.indexLoadError)
    "q".data 5).1 idx0 rfl

/-! ## C8 -/

/-- Every member of the joined parts is an infix of the join. -/
theorem infix_joinSep {sep x : Str} :
    ∀ {parts : List Str}, x ∈ parts → x <:+: joinSep sep parts := by
  intro parts
  induction parts with
  | nil => intro h; cases h
  | cons p ps ih =>
    intro h
    rcases List.mem_cons.mp h with rfl | hmem
    · cases ps with
      | nil => exact List.infix_rfl
      | cons q qs =>
        exact ⟨[], sep ++ joinSep sep (q :: qs), by simp [joinSep]⟩
    · cases ps with
      | nil => cases hmem
      | cons q qs =>
        have h2 : joinSep sep (q :: qs) <:+ p ++ sep ++ joinSep sep (q :: qs) :=
          ⟨p ++ sep, by simp⟩
        exact (ih hmem).trans ( List.IsSuffix.isInfix h2)

/-- A chunk's full text is a suffix of its rendered context block. -/
theorem content_suffix_sourceBlock (i : Nat) (d : Document) :
    d.page_content <:+ sourceBlock i d :=
  ⟨"[Source ".data ++ (toString i).data ++ ": ".data ++ getSource d.metadata ++
    ", Page ".data ++ pageStr d.metadata ++ "]\n".data, rfl⟩

/-- C8: context assembly is deterministic and positional — the `i`-th block
(rank `i+1`) is `[Source <rank>: <source>, Page <page>]` followed by that
chunk's full text, blocks joined by the fixed delimiter — and the
300-character preview truncation applies only to the displayed sources:
the prompt handed to the answer generator contains every retrieved chunk's
full text. -/
theorem context_assembly_spec (systemPrompt question : Str) (docs : List Document) :
    (∀ i d, docs[i]? = some d →
        (contextParts docs)[i]? = some (sourceBlock (i + 1) d))
  ∧ buildContext docs = joinSep "\n\n---\n\n".data (contextParts docs)
  ∧ (∀ d ∈ docs,
        d.page_content <:+:
          fullPrompt systemPrompt (buildContext docs) question ragTail)
  ∧ (∀ d : Document, 300 < d.page_content.length →
        (mkSourceRef d).content = d.page_content.take 300 ++ "...".data)
  ∧ (∀ d : Document, d.page_content.length ≤ 300 →
        (mkSourceRef d).content = d.page_content) := by
  have hpos : ∀ i d, docs[i]? = some d →
      (contextParts docs)[i]? = some (sourceBlock (i + 1) d) := by
    intro i d h
    simp [contextParts, List.getElem?_map, List.getElem?_enum, h]
  refine ⟨hpos, rfl, ?_, ?_, ?_⟩
  · intro d hd
    obtain ⟨n, hn, hget⟩ := List.mem_iff_getElem.mp hd
    have hb : (contextParts docs)[n]? = some (sourceBlock (n + 1) d) :=
      hpos n d (by rw [List.getElem?_eq_getElem hn, hget])
    have hmem : sourceBlock (n + 1) d ∈ contextParts docs := List.getElem?_mem hb
    have h1 : d.page_content <:+: buildContext docs :=
      ( List.IsSuffix.isInfix (content_suffix_sourceBlock (n + 1) d)).trans
        (infix_joinSep hmem)
    have h2 : buildContext docs <:+:
        fullPrompt systemPrompt (buildContext docs) question ragTail :=
      ⟨systemPrompt ++ "\n\nContext from manuals:\n".data,
        "\n\nQuestion: ".data ++ question ++ "\n\n".data ++ ragTail,
        by simp [fullPrompt, List.append_assoc]⟩
    exact h1.trans h2
  · intro d h
    simp [mkSourceRef, pyTruncate, h]
  · intro d h
    simp [mkSourceRef, pyTruncate, Nat.not_lt.mpr h]

/-- C8, at a concrete one-chunk context: the chunk's full text reaches the
generator's prompt. -/
theorem context_assembly_spec_witness :
    d0.page_content <:+: fullPrompt [] (buildContext [d0]) "q".data ragTail :=
  (context_assembly_spec [] "q".data [d0]).2.2.1 d0 (by simp)

/-! ## C9 -/

/-- C9: every image in a multimodal query result comes from the image catalog
and shares `(source, page)` with some retrieved chunk, and when the question
matches no diagram keyword and no retrieved chunk has `has_diagram` set, no
image association is attempted at all: the result carries no images and no
image analyses. -/
theorem image_association_by_source_page (sp q : Str) (docs : List Document)
    (catalog : List CatalogImage) (pe : Str → Bool) (vision : Str → Str → Str)
    (llm : Str → Except PyError Str) (rs ii : Bool) (r : MMResult)
    (h : mmQuery sp docs catalog pe vision llm q rs ii = .ok r) :
    (∀ ref ∈ r.images, ∃ img ∈ catalog, ref = mkImageRef img ∧
        ∃ d ∈ docs, img.source = d.metadata.source ∧ img.page = d.metadata.page)
  ∧ ((detect_diagram_request q = false ∧
        (∀ d ∈ docs, d.metadata.has_diagram.getD false = false)) →
      r.images = [] ∧ r.image_analyses.getD [] = []) := by
  simp only [mmQuery] at h
  split at h
  · injection h with h; subst h
    exact ⟨by simp, fun _ => ⟨rfl, rfl⟩⟩
  · split at h
    · exact absurd h (by simp)
    · injection h with h; subst h
      constructor
      · intro ref href
        dsimp only at href
        rcases List.mem_map.mp href with ⟨img, himg, rfl⟩
        have himg' : img ∈ find_relevant_images catalog docs := by
          split at himg
          · exact himg
          · cases himg
        rcases List.mem_flatMap.mp himg' with ⟨d, hd, hf⟩
        rcases List.mem_filter.mp hf with ⟨hc, hdec⟩
        have hpq := of_decide_eq_true hdec
        exact ⟨img, hc, rfl, d, hd, hpq.2, hpq.1⟩
      · rintro ⟨hw, hdg⟩
        have hany : (docs.any fun d => d.metadata.has_diagram.getD false) = false := by
          rw [List.any_eq_false]
          intro d hd
          simp [hdg d hd]
        have htr : (ii && (detect_diagram_request q ||
            docs.any fun d => d.metadata.has_diagram.getD false)) = false := by
          rw [hw, hany]; simp
        constructor
        · dsimp only; rw [htr]; simp
        · dsimp only; rw [htr]; simp

/-- C9, at a concrete run with no diagram request. -/
theorem image_association_witness :
    (∀ ref ∈ mr0.images, ∃ img ∈ ([] : List CatalogImage), ref = mkImageRef img ∧
        ∃ d ∈ [d0], img.source = d.metadata.source ∧ img.page = d.metadata.page)
  ∧ ((detect_diagram_request "q".data = false ∧
        (∀ d ∈ [d0], d.metadata.has_diagram.getD false = false)) →
      mr0.images = [] ∧ mr0.image_analyses.getD [] = []) :=
  image_association_by_source_page [] "q".data [d0] [] (fun _ => false)
    (fun _ _ => []) (fun _ => .ok "ans".data) true true mr0 rfl

/-! ## C10 -/

/-- C10: per multimodal query at most 3 images are analyzed by the vision
model — `image_analyses` has length at most 3 — while the result's `images`
list still carries every catalog image matching a retrieved chunk, beyond the
first 3 included. -/
theorem image_analysis_cap (sp q : Str) (docs : List Document)
    (catalog : List CatalogImage) (pe : Str → Bool) (vision : Str → Str → Str)
    (llm : Str → Except PyError Str) (rs ii : Bool) (r : MMResult)
    (h : mmQuery sp docs catalog pe vision llm q rs ii = .ok r) :
    (r.image_analyses.getD []).length ≤ 3
  ∧ (docs.length ≠ 0 → ii = true →
      (detect_diagram_request q ||
        docs.any fun d => d.metadata.has_diagram.getD false) = true →
      r.images = (find_relevant_images catalog docs).map mkImageRef) := by
  simp only [mmQuery] at h
  split at h
  · rename_i hzero
    injection h with h; subst h
    exact ⟨by simp, fun hd => absurd hzero hd⟩
  · split at h
    · exact absurd h (by simp)
    · injection h with h; subst h
      constructor
      · dsimp only
        refine le_trans (List.length_filterMap_le _ _) ?_
        rw [List.length_take]
        exact Nat.min_le_left ..
      · intro hne hii htr
        dsimp only
        rw [hii, htr]
        simp

/-- C10, at a concrete run. -/
theorem image_analysis_cap_witness :
    (mr0.image_analyses.getD []).length ≤ 3
  ∧ (([d0] : List Document).length ≠ 0 → true = true →
      (detect_diagram_request "q".data ||
        ([d0] : List Document).any fun d => d.metadata.has_diagram.getD false) = true →
      mr0.images = (find_relevant_images [] [d0]).map mkImageRef) :=
  image_analysis_cap [] "q".data [d0] [] (fun _ => false) (fun _ _ => [])
    (fun _ => .ok "ans".data) true true mr0 rfl

end AeroMind
